import Mathlib

/-!
Shallow embedding of the canvas drawing component
(`src/components/Canvas.tsx` and its JavaScript variant).

Coordinates are JavaScript numbers; the operations used by the component
(`Math.min`, `Math.abs`, midpoint, halving, `Math.round`) are modelled
exactly over the rationals. The DOM drawing context is modelled as a
record of the mutable per-call configuration (`strokeStyle`, `lineWidth`,
`fillStyle`), the save/restore stack, and the list of emitted path/draw
operations. React state updates become explicit state passing on a
`CanvasState` record.
-/

namespace Canva

/-- A point in canvas-local pixel coordinates (`interface Point`). -/
structure Point where
  x : ℚ
  y : ℚ
deriving DecidableEq, Repr

/-- `type ToolId = 'rect' | 'circle' | 'line' | 'draw' | 'image'`. -/
inductive ToolId where
  | rect
  | circle
  | line
  | draw
  | image
deriving DecidableEq, Repr

/-- The tagged union `CanvasElement` of the five element variants.
The opaque decoded raster handle (`HTMLImageElement`) of an image
element is modelled as a `Nat` identifier. -/
inductive CanvasElement where
  | rect (x y w h : ℚ)
  | circle (cx cy rx ry : ℚ)
  | line (x1 y1 x2 y2 : ℚ)
  | draw (path : List Point)
  | image (img : ℕ) (x y w h : ℚ)
deriving DecidableEq, Repr

/-- `RectTool.makeElement` (`Canvas.tsx` lines 47-55): normalize the two
corners with `Math.min` / `Math.abs`. -/
def rectMakeElement (start finish : Point) : CanvasElement :=
  .rect (min start.x finish.x) (min start.y finish.y)
    |finish.x - start.x| |finish.y - start.y|

/-- `CircleTool.makeElement` (`Canvas.tsx` lines 70-78): midpoint center,
half-delta radii. -/
def circleMakeElement (start finish : Point) : CanvasElement :=
  .circle ((start.x + finish.x) / 2) ((start.y + finish.y) / 2)
    (|finish.x - start.x| / 2) (|finish.y - start.y| / 2)

/-- `LineTool.makeElement` (`Canvas.tsx` lines 93-95): pass the endpoints
through unchanged. -/
def lineMakeElement (start finish : Point) : CanvasElement :=
  .line start.x start.y finish.x finish.y

/-- `makeShapeElement(tool, start, end)` from the JavaScript variant
(part_001 lines 40-62). For `draw` and `image` the function falls off the
end and returns `undefined`, modelled as `none`; this also matches the
base-class `CanvasTool.makeElement` of `Canvas.tsx` (lines 28-30). -/
def makeShapeElement (tool : ToolId) (start finish : Point) :
    Option CanvasElement :=
  match tool with
  | .rect => some (rectMakeElement start finish)
  | .circle => some (circleMakeElement start finish)
  | .line => some (lineMakeElement start finish)
  | .draw => none
  | .image => none

/-- The per-call configuration of a `CanvasRenderingContext2D`: the
fields `drawElement` assigns before drawing. -/
structure CtxConfig where
  strokeStyle : String
  lineWidth : ℚ
  fillStyle : String
deriving DecidableEq, Repr

/-- A drawing operation issued to the context. `ellipsePath` records the
geometry arguments; the remaining `ctx.ellipse` arguments are the fixed
constants `0, 0, Math.PI * 2`. -/
inductive DrawOp where
  | beginPath
  | rectPath (x y w h : ℚ)
  | fillOp
  | strokeOp
  | ellipsePath (cx cy rx ry : ℚ)
  | moveTo (x y : ℚ)
  | lineTo (x y : ℚ)
  | drawImage (img : ℕ) (x y w h : ℚ)
deriving DecidableEq, Repr

/-- The drawing context: mutable per-call configuration, the
save/restore stack, and the operations emitted so far. -/
structure Ctx where
  config : CtxConfig
  saved : List CtxConfig
  ops : List DrawOp
deriving DecidableEq, Repr

/-- `ctx.save()`: push the current configuration. -/
def Ctx.save (ctx : Ctx) : Ctx :=
  { ctx with saved := ctx.config :: ctx.saved }

/-- `ctx.restore()`: pop the most recently saved configuration; a no-op
on an empty stack, per the canvas API. -/
def Ctx.restore (ctx : Ctx) : Ctx :=
  match ctx.saved with
  | [] => ctx
  | c :: rest => { ctx with config := c, saved := rest }

/-- Emit one drawing operation. -/
def Ctx.emit (ctx : Ctx) (op : DrawOp) : Ctx :=
  { ctx with ops := ctx.ops ++ [op] }

/-- Assign the three configuration fields, as `drawElement` does before
dispatching (`strokeStyle`, `lineWidth`, `fillStyle`). -/
def Ctx.setConfig (ctx : Ctx) (c : CtxConfig) : Ctx :=
  { ctx with config := c }

/-- The fixed configuration `drawElement` installs:
stroke `#1a1a2e`, width 2, translucent cornflower fill. -/
def fixedConfig : CtxConfig :=
  ⟨"#1a1a2e", 2, "rgba(100, 149, 237, 0.25)"⟩

/-- `FreehandTool.draw` body applied to the points after the head:
`for (let i = 1; i < el.path.length; i++) ctx.lineTo(...)`. -/
def lineToAll (ctx : Ctx) (pts : List Point) : Ctx :=
  match pts with
  | [] => ctx
  | p :: rest => lineToAll (ctx.emit (.lineTo p.x p.y)) rest

/-- The per-variant draw bodies of the tool classes in `Canvas.tsx`
(`RectTool.draw`, `CircleTool.draw`, `LineTool.draw`, `FreehandTool.draw`,
`ImageTool.draw`), dispatched by element variant as
`TOOL_MAP[el.type].draw(ctx, el)` does. `FreehandTool.draw` returns
without emitting anything when the path has fewer than 2 points. -/
def toolDraw (ctx : Ctx) (el : CanvasElement) : Ctx :=
  match el with
  | .rect x y w h =>
    ((((ctx.emit .beginPath).emit (.rectPath x y w h)).emit .fillOp).emit
      .strokeOp)
  | .circle cx cy rx ry =>
    ((((ctx.emit .beginPath).emit (.ellipsePath cx cy rx ry)).emit
      .fillOp).emit .strokeOp)
  | .line x1 y1 x2 y2 =>
    (((ctx.emit .beginPath).emit (.moveTo x1 y1)).emit (.lineTo x2 y2)).emit
      .strokeOp
  | .draw path =>
    match path with
    | [] => ctx
    | [_] => ctx
    | p :: rest => (lineToAll ((ctx.emit .beginPath).emit (.moveTo p.x p.y))
        rest).emit .strokeOp
  | .image img x y w h => ctx.emit (.drawImage img x y w h)

/-- `drawElement` from `Canvas.tsx` (lines 139-152): save, install the
fixed configuration, draw the variant (image inline, others via the tool
map), restore. -/
def drawElement (ctx : Ctx) (el : CanvasElement) : Ctx :=
  (toolDraw ((ctx.save).setConfig fixedConfig) el).restore

/-- `drawElement` from the JavaScript variant (part_001 lines 6-38): one
function with an if-chain over `el.type`. In the `draw` branch,
`if (el.path.length < 2) return` exits the whole function, skipping the
final `ctx.restore()`. -/
def drawElementJS (ctx : Ctx) (el : CanvasElement) : Ctx :=
  let c := (ctx.save).setConfig fixedConfig
  match el with
  | .rect x y w h =>
    (((((c.emit .beginPath).emit (.rectPath x y w h)).emit .fillOp).emit
      .strokeOp)).restore
  | .circle cx cy rx ry =>
    (((((c.emit .beginPath).emit (.ellipsePath cx cy rx ry)).emit
      .fillOp).emit .strokeOp)).restore
  | .line x1 y1 x2 y2 =>
    ((((c.emit .beginPath).emit (.moveTo x1 y1)).emit
      (.lineTo x2 y2)).emit .strokeOp).restore
  | .draw path =>
    match path with
    | [] => c
    | [_] => c
    | p :: rest =>
      ((lineToAll ((c.emit .beginPath).emit (.moveTo p.x p.y)) rest).emit
        .strokeOp).restore
  | .image img x y w h => (c.emit (.drawImage img x y w h)).restore

/-- A tool object as stored in the registry: its identifier and its
`makeElement` method. The draw method is modelled separately by
`toolDraw`, which dispatches by element variant. -/
structure CanvasTool where
  id : ToolId
  makeElementFn : Point → Point → Option CanvasElement

/-- `new RectTool()`. -/
def RectTool : CanvasTool :=
  ⟨.rect, fun s e => some (rectMakeElement s e)⟩

/-- `new CircleTool()`. -/
def CircleTool : CanvasTool :=
  ⟨.circle, fun s e => some (circleMakeElement s e)⟩

/-- `new LineTool()`. -/
def LineTool : CanvasTool :=
  ⟨.line, fun s e => some (lineMakeElement s e)⟩

/-- `new FreehandTool()`: inherits the base `makeElement`, which returns
`undefined`. -/
def FreehandTool : CanvasTool :=
  ⟨.draw, fun _ _ => none⟩

/-- `const TOOLS = [new RectTool(), new CircleTool(), new LineTool(),
new FreehandTool()]` — the toolbar tools; `ImageTool` is excluded since
images are added via file upload (`Canvas.tsx` lines 124-130). -/
def TOOLS : List CanvasTool :=
  [RectTool, CircleTool, LineTool, FreehandTool]

/-- `TOOL_MAP[t]`: look a tool id up in the registry built from `TOOLS`;
`none` models the lookup coming back `undefined`. -/
def lookupTool (t : ToolId) : Option CanvasTool :=
  TOOLS.find? (fun tool => tool.id = t)

/-- The tool identifiers offered by the toolbar buttons
(`TOOLS.map(t => ... onClick={() => setTool(t.id)} ...)`). -/
def toolbarIds : List ToolId :=
  [.rect, .circle, .line, .draw]

/-- The transient drag record `drawingRef.current`:
`{ active: boolean; start: Point | null; path: Point[] }`. -/
structure DragState where
  active : Bool
  start : Option Point
  path : List Point
deriving DecidableEq, Repr

/-- The component state: the committed element list (the Document), the
active tool, and the drag record. -/
structure CanvasState where
  elements : List CanvasElement
  tool : ToolId
  drawing : DragState
deriving DecidableEq, Repr

/-- The state at component mount: empty Document, `rect` tool, inactive
drag. -/
def initState : CanvasState :=
  ⟨[], .rect, ⟨false, none, []⟩⟩

/-- `onMouseDown`: capture the position, reset the drag record to an
active drag started there with a single-point path. -/
def onMouseDown (s : CanvasState) (pos : Point) : CanvasState :=
  { s with drawing := ⟨true, some pos, [pos]⟩ }

/-- `onMouseMove`: ignored when no drag is active. With the freehand tool
the position is appended to the path (and a draft is rendered); with any
other tool a draft is built via `TOOL_MAP[t].makeElement` and rendered,
leaving the state unchanged. `none` models the crash that a failed
`TOOL_MAP` lookup would cause (`undefined.makeElement`). -/
def onMouseMove (s : CanvasState) (pos : Point) : Option CanvasState :=
  if s.drawing.active = false then some s
  else if s.tool = .draw then
    some { s with drawing :=
      { s.drawing with path := s.drawing.path ++ [pos] } }
  else
    match s.drawing.start with
    | none => some s
    | some _ =>
      match lookupTool s.tool with
      | none => none
      | some _ => some s

/-- `onMouseUp` (also wired to `onMouseLeave`): ignored when no drag is
active. Otherwise deactivate the drag; with the freehand tool append the
release position to the path and commit a `draw` element with the full
path; with any other tool build the element from `(start, pos)` and
commit it when defined. `none` models a failed `TOOL_MAP` lookup. -/
def onMouseUp (s : CanvasState) (pos : Point) : Option CanvasState :=
  if s.drawing.active = false then some s
  else if s.tool = .draw then
    some { s with
      elements := s.elements ++ [.draw (s.drawing.path ++ [pos])],
      drawing := ⟨false, s.drawing.start, s.drawing.path ++ [pos]⟩ }
  else
    match s.drawing.start with
    | none => some { s with drawing := { s.drawing with active := false } }
    | some start =>
      match lookupTool s.tool with
      | none => none
      | some t =>
        match t.makeElementFn start pos with
        | none => some { s with drawing := { s.drawing with active := false } }
        | some el => some { s with
            elements := s.elements ++ [el],
            drawing := { s.drawing with active := false } }

/-- The toolbar `clear` button: `setElements([])`. -/
def clearOp (s : CanvasState) : CanvasState :=
  { s with elements := [] }

/-- `setTool(t)` from a toolbar button click. -/
def setToolOp (s : CanvasState) (t : ToolId) : CanvasState :=
  { s with tool := t }

/-- JavaScript `Math.round` on a rational: round half toward positive
infinity. -/
def jsRound (q : ℚ) : ℤ :=
  ⌊q + 1 / 2⌋

/-- The element committed by `img.onload` in `onImageUpload` for a
decoded image of intrinsic size `W`×`H`:
`w = Math.min(img.width, 400)`,
`h = Math.round((img.height / img.width) * w)`, placed at `(50, 50)`. -/
def imageElementFor (handle : ℕ) (W H : ℕ) : CanvasElement :=
  .image handle 50 50 (min (W : ℚ) 400)
    ((jsRound ((H : ℚ) / (W : ℚ) * min (W : ℚ) 400) : ℤ) : ℚ)

/-- The state update performed when an image upload's decode completes:
append the placed image element to the Document. -/
def onImageLoad (s : CanvasState) (handle : ℕ) (W H : ℕ) : CanvasState :=
  { s with elements := s.elements ++ [imageElementFor handle W H] }

/-- One UI event applied to the component state. `select` is only ever
invoked from a toolbar button, so only with a toolbar tool id; `move`
and `up` take the handler result when the handler does not crash. -/
inductive Step : CanvasState → CanvasState → Prop where
  | down (s : CanvasState) (pos : Point) : Step s (onMouseDown s pos)
  | move (s s' : CanvasState) (pos : Point) :
      onMouseMove s pos = some s' → Step s s'
  | up (s s' : CanvasState) (pos : Point) :
      onMouseUp s pos = some s' → Step s s'
  | select (s : CanvasState) (t : ToolId) :
      t ∈ toolbarIds → Step s (setToolOp s t)
  | clear (s : CanvasState) : Step s (clearOp s)
  | upload (s : CanvasState) (handle W H : ℕ) :
      Step s (onImageLoad s handle W H)

/-- The states the component can reach from mount. -/
inductive Reachable : CanvasState → Prop where
  | init : Reachable initState
  | step {s s' : CanvasState} : Reachable s → Step s s' → Reachable s'

/-- Apply `onMouseMove` for each position in turn, propagating a crash. -/
def runMoves (s : CanvasState) (ps : List Point) : Option CanvasState :=
  match ps with
  | [] => some s
  | p :: rest =>
    match onMouseMove s p with
    | none => none
    | some s' => runMoves s' rest

/-- Invariant: an active drag's path is non-empty (pointer-down seeds it
with one point), and every committed freehand path has at least two
points. -/
def DrawPathsOk (s : CanvasState) : Prop :=
  (s.drawing.active = true → 1 ≤ s.drawing.path.length) ∧
  ∀ p : List Point, CanvasElement.draw p ∈ s.elements → 2 ≤ p.length

/-- A concrete state holding one committed freehand element, reached by
selecting the freehand tool, pointer-down at the origin, and pointer-up
at `(1,1)`. -/
def c9state : CanvasState :=
  ⟨[.draw [⟨0, 0⟩, ⟨1, 1⟩]], .draw,
    ⟨false, some ⟨0, 0⟩, [⟨0, 0⟩, ⟨1, 1⟩]⟩⟩

/-- A context with a configuration distinct from the one `drawElement`
installs, an empty save stack, and no emitted operations. -/
def ctx0 : Ctx :=
  ⟨⟨"#000000", 1, "#ffffff"⟩, [], []⟩

/-! ### Helper lemmas -/

theorem runMoves_draw (ps : List Point) (s : CanvasState)
    (hact : s.drawing.active = true) (htool : s.tool = .draw) :
    runMoves s ps = some { s with drawing :=
      { s.drawing with path := s.drawing.path ++ ps } } := by
  induction ps generalizing s with
  | nil => simp [runMoves]
  | cons p rest ih =>
    rw [runMoves]
    have hmv : onMouseMove s p = some { s with drawing :=
        { s.drawing with path := s.drawing.path ++ [p] } } := by
      simp [onMouseMove, hact, htool]
    rw [hmv]
    show runMoves _ rest = _
    rw [ih { s with drawing :=
      { s.drawing with path := s.drawing.path ++ [p] } } hact htool]
    simp

theorem lookupTool_rect : lookupTool .rect = some RectTool := rfl

theorem lookupTool_circle : lookupTool .circle = some CircleTool := rfl

theorem lookupTool_line : lookupTool .line = some LineTool := rfl

theorem lookupTool_draw : lookupTool .draw = some FreehandTool := rfl

theorem lookupTool_image : lookupTool .image = none := rfl

theorem onMouseMove_tool_eq (s s' : CanvasState) (pos : Point)
    (h : onMouseMove s pos = some s') : s'.tool = s.tool := by
  unfold onMouseMove at h
  repeat' split at h
  all_goals first
    | exact Option.noConfusion h
    | (injection h with h; subst h; rfl)

theorem onMouseUp_tool_eq (s s' : CanvasState) (pos : Point)
    (h : onMouseUp s pos = some s') : s'.tool = s.tool := by
  unfold onMouseUp at h
  repeat' split at h
  all_goals first
    | exact Option.noConfusion h
    | (injection h with h; subst h; rfl)

theorem onMouseMove_preserves_drawPathsOk (s s' : CanvasState)
    (pos : Point) (h : onMouseMove s pos = some s')
    (hs : DrawPathsOk s) : DrawPathsOk s' := by
  unfold onMouseMove at h
  repeat' split at h
  all_goals first
    | exact Option.noConfusion h
    | (injection h with h; subst h;
       first
         | exact hs
         | (refine ⟨fun _ => ?_, hs.2⟩; simp))

theorem onMouseUp_preserves_drawPathsOk (s s' : CanvasState)
    (pos : Point) (h : onMouseUp s pos = some s')
    (hs : DrawPathsOk s) : DrawPathsOk s' := by
  obtain ⟨h1, h2⟩ := hs
  cases hact : s.drawing.active with
  | false =>
    unfold onMouseUp at h
    rw [hact] at h
    simp only [reduceIte] at h
    injection h with h
    subst h
    exact ⟨h1, h2⟩
  | true =>
    by_cases ht : s.tool = ToolId.draw
    · unfold onMouseUp at h
      rw [hact, ht] at h
      simp only [reduceIte, Bool.true_eq_false] at h
      injection h with h
      subst h
      refine ⟨by simp, fun p hp => ?_⟩
      rcases List.mem_append.mp hp with hp | hp
      · exact h2 p hp
      · have hp2 : p = s.drawing.path ++ [pos] := by
          simpa using hp
        subst hp2
        have := h1 hact
        simp
        omega
    · cases hst : s.drawing.start with
      | none =>
        unfold onMouseUp at h
        rw [hact, hst] at h
        simp only [reduceIte, Bool.true_eq_false, if_neg ht] at h
        injection h with h
        subst h
        exact ⟨by simp, h2⟩
      | some st =>
        cases htool : s.tool with
        | draw => exact absurd htool ht
        | image =>
          unfold onMouseUp at h
          rw [hact, hst, htool] at h
          simp [lookupTool_image] at h
        | rect =>
          unfold onMouseUp at h
          rw [hact, hst, htool] at h
          simp only [reduceIte, Bool.true_eq_false, reduceCtorEq,
            lookupTool_rect, RectTool] at h
          injection h with h
          subst h
          refine ⟨by simp, fun p hp => ?_⟩
          rcases List.mem_append.mp hp with hp | hp
          · exact h2 p hp
          · simp [rectMakeElement] at hp
        | circle =>
          unfold onMouseUp at h
          rw [hact, hst, htool] at h
          simp only [reduceIte, Bool.true_eq_false, reduceCtorEq,
            lookupTool_circle, CircleTool] at h
          injection h with h
          subst h
          refine ⟨by simp, fun p hp => ?_⟩
          rcases List.mem_append.mp hp with hp | hp
          · exact h2 p hp
          · simp [circleMakeElement] at hp
        | line =>
          unfold onMouseUp at h
          rw [hact, hst, htool] at h
          simp only [reduceIte, Bool.true_eq_false, reduceCtorEq,
            lookupTool_line, LineTool] at h
          injection h with h
          subst h
          refine ⟨by simp, fun p hp => ?_⟩
          rcases List.mem_append.mp hp with hp | hp
          · exact h2 p hp
          · simp [lineMakeElement] at hp

theorem step_preserves_drawPathsOk {s s' : CanvasState}
    (h : Step s s') (hs : DrawPathsOk s) : DrawPathsOk s' := by
  cases h with
  | down pos =>
    exact ⟨fun _ => by simp [onMouseDown],
      by simpa [onMouseDown] using hs.2⟩
  | move s' pos hmv =>
    exact onMouseMove_preserves_drawPathsOk s s' pos hmv hs
  | up s' pos hmv =>
    exact onMouseUp_preserves_drawPathsOk s s' pos hmv hs
  | select t ht =>
    exact ⟨hs.1, by simpa [setToolOp] using hs.2⟩
  | clear =>
    exact ⟨hs.1, by simp [clearOp]⟩
  | upload handle W H =>
    refine ⟨hs.1, fun p hp => ?_⟩
    simp [onImageLoad, imageElementFor] at hp
    exact hs.2 p hp

theorem reachable_drawPathsOk {s : CanvasState} (hr : Reachable s) :
    DrawPathsOk s := by
  induction hr with
  | init => exact ⟨by simp [initState], by simp [initState]⟩
  | step _ hstep ih => exact step_preserves_drawPathsOk hstep ih

theorem reachable_c9state : Reachable c9state :=
  .step (.step (.step .init
      (Step.select initState .draw (by simp [toolbarIds])))
    (Step.down (setToolOp initState .draw) ⟨0, 0⟩))
    (Step.up (onMouseDown (setToolOp initState .draw) ⟨0, 0⟩) c9state
      ⟨1, 1⟩ rfl)

theorem reachable_tool_mem {s : CanvasState} (hr : Reachable s) :
    s.tool ∈ toolbarIds := by
  induction hr with
  | init => simp [initState, toolbarIds]
  | step _ hstep ih =>
    rename_i s s' _
    cases hstep with
    | down pos => simpa [onMouseDown] using ih
    | move s' pos h => rw [onMouseMove_tool_eq s s' pos h]; exact ih
    | up s' pos h => rw [onMouseUp_tool_eq s s' pos h]; exact ih
    | select t ht => simpa [setToolOp] using ht
    | clear => simpa [clearOp] using ih
    | upload handle W H => simpa [onImageLoad] using ih

theorem lookupTool_isSome_of_mem {t : ToolId} (h : t ∈ toolbarIds) :
    (lookupTool t).isSome = true := by
  simp [toolbarIds] at h
  rcases h with rfl | rfl | rfl | rfl <;> rfl

theorem onMouseMove_isSome_of_mem {s : CanvasState} (pos : Point)
    (h : s.tool ∈ toolbarIds) : (onMouseMove s pos).isSome = true := by
  simp [toolbarIds] at h
  rcases h with ht | ht | ht | ht <;>
    (unfold onMouseMove; repeat' split) <;>
    simp_all [lookupTool_rect, lookupTool_circle, lookupTool_line,
      lookupTool_draw, lookupTool_image]

theorem onMouseUp_isSome_of_mem {s : CanvasState} (pos : Point)
    (h : s.tool ∈ toolbarIds) : (onMouseUp s pos).isSome = true := by
  simp [toolbarIds] at h
  rcases h with ht | ht | ht | ht <;>
    (unfold onMouseUp; repeat' split) <;>
    simp_all [lookupTool_rect, lookupTool_circle, lookupTool_line,
      lookupTool_draw, lookupTool_image]

theorem lineToAll_config_saved (pts : List Point) (ctx : Ctx) :
    (lineToAll ctx pts).config = ctx.config ∧
    (lineToAll ctx pts).saved = ctx.saved := by
  induction pts generalizing ctx with
  | nil => exact ⟨rfl, rfl⟩
  | cons p rest ih => simpa [lineToAll, Ctx.emit] using ih _

theorem Ctx.restore_cons (ctx : Ctx) (c : CtxConfig)
    (rest : List CtxConfig) (h : ctx.saved = c :: rest) :
    ctx.restore = { ctx with config := c, saved := rest } := by
  unfold Ctx.restore
  rw [h]

theorem drawElement_restores (ctx : Ctx) (el : CanvasElement) :
    (drawElement ctx el).config = ctx.config ∧
    (drawElement ctx el).saved = ctx.saved := by
  cases el with
  | draw path =>
    match path with
    | [] => exact ⟨rfl, rfl⟩
    | [_] => exact ⟨rfl, rfl⟩
    | p :: q :: rest =>
      obtain ⟨h1, h2⟩ := lineToAll_config_saved (q :: rest)
        ((((ctx.save).setConfig fixedConfig).emit .beginPath).emit
          (.moveTo p.x p.y))
      have hfin : ((lineToAll ((((ctx.save).setConfig fixedConfig).emit
          .beginPath).emit (.moveTo p.x p.y)) (q :: rest)).emit
          .strokeOp).saved = ctx.config :: ctx.saved := h2
      show ((toolDraw ((ctx.save).setConfig fixedConfig)
        (.draw (p :: q :: rest))).restore.config = ctx.config) ∧
        ((toolDraw ((ctx.save).setConfig fixedConfig)
          (.draw (p :: q :: rest))).restore.saved = ctx.saved)
      rw [toolDraw, Ctx.restore_cons _ _ _ hfin]
      · exact ⟨rfl, rfl⟩
      · simp
  | _ => exact ⟨rfl, rfl⟩

/-! ### Claims -/

/-- C1: building a rect element from two points normalizes to
`{x: min, y: min, w: |dx|, h: |dy|}`; building from the same point twice
yields a degenerate `w = 0, h = 0` rectangle at that point, and that
degenerate rectangle is still committed by pointer-up. -/
theorem rect_build_min_abs_and_degenerate_commit
    (p1 p2 p : Point) (s : CanvasState)
    (hact : s.drawing.active = true) (htool : s.tool = .rect)
    (hstart : s.drawing.start = some p) :
    makeShapeElement .rect p1 p2 =
      some (.rect (min p1.x p2.x) (min p1.y p2.y)
        |p2.x - p1.x| |p2.y - p1.y|) ∧
    makeShapeElement .rect p p = some (.rect p.x p.y 0 0) ∧
    onMouseUp s p = some { s with
      elements := s.elements ++ [.rect p.x p.y 0 0],
      drawing := { s.drawing with active := false } } := by
  refine ⟨rfl, ?_, ?_⟩
  · simp [makeShapeElement, rectMakeElement]
  · simp [onMouseUp, hact, htool, hstart, lookupTool_rect, RectTool,
      rectMakeElement]

/-- Witness for C1 at concrete inputs. -/
theorem rect_build_min_abs_and_degenerate_commit_witness :
    makeShapeElement .rect ⟨1, 2⟩ ⟨5, 0⟩ =
      some (.rect (min (1 : ℚ) 5) (min (2 : ℚ) 0)
        |(5 : ℚ) - 1| |(0 : ℚ) - 2|) ∧
    makeShapeElement .rect ⟨3, 4⟩ ⟨3, 4⟩ = some (.rect 3 4 0 0) ∧
    onMouseUp ⟨[], .rect, ⟨true, some ⟨3, 4⟩, [⟨3, 4⟩]⟩⟩ ⟨3, 4⟩ =
      some ⟨[.rect 3 4 0 0], .rect, ⟨false, some ⟨3, 4⟩, [⟨3, 4⟩]⟩⟩ :=
  rect_build_min_abs_and_degenerate_commit ⟨1, 2⟩ ⟨5, 0⟩ ⟨3, 4⟩
    ⟨[], .rect, ⟨true, some ⟨3, 4⟩, [⟨3, 4⟩]⟩⟩ rfl rfl rfl

/-- C2: building a circle element yields the midpoint center and
half-absolute-delta radii; dragging the circle tool from `(0,0)` to
`(20,10)` commits `{circle, cx:10, cy:5, rx:10, ry:5}`. -/
theorem circle_build_midpoint_and_scenario_commit
    (p1 p2 : Point) (s : CanvasState)
    (hact : s.drawing.active = true) (htool : s.tool = .circle)
    (hstart : s.drawing.start = some ⟨0, 0⟩) :
    makeShapeElement .circle p1 p2 =
      some (.circle ((p1.x + p2.x) / 2) ((p1.y + p2.y) / 2)
        (|p2.x - p1.x| / 2) (|p2.y - p1.y| / 2)) ∧
    onMouseUp s ⟨20, 10⟩ = some { s with
      elements := s.elements ++ [.circle 10 5 10 5],
      drawing := { s.drawing with active := false } } := by
  refine ⟨rfl, ?_⟩
  have hmk : circleMakeElement ⟨0, 0⟩ ⟨20, 10⟩ = .circle 10 5 10 5 := by
    simp [circleMakeElement]
    norm_num
  simp [onMouseUp, hact, htool, hstart, lookupTool_circle, CircleTool, hmk]

/-- Witness for C2 at concrete inputs. -/
theorem circle_build_midpoint_and_scenario_commit_witness :
    makeShapeElement .circle ⟨0, 0⟩ ⟨20, 10⟩ =
      some (.circle (((0 : ℚ) + 20) / 2) (((0 : ℚ) + 10) / 2)
        (|(20 : ℚ) - 0| / 2) (|(10 : ℚ) - 0| / 2)) ∧
    onMouseUp ⟨[], .circle, ⟨true, some ⟨0, 0⟩, [⟨0, 0⟩]⟩⟩ ⟨20, 10⟩ =
      some ⟨[.circle 10 5 10 5], .circle,
        ⟨false, some ⟨0, 0⟩, [⟨0, 0⟩]⟩⟩ :=
  circle_build_midpoint_and_scenario_commit ⟨0, 0⟩ ⟨20, 10⟩
    ⟨[], .circle, ⟨true, some ⟨0, 0⟩, [⟨0, 0⟩]⟩⟩ rfl rfl rfl

/-- C3: rect and circle builds are symmetric in their two points, while
the line build is order-sensitive: swapping the points swaps `(x1,y1)`
with `(x2,y2)`. -/
theorem build_symmetry (p1 p2 : Point) :
    makeShapeElement .rect p1 p2 = makeShapeElement .rect p2 p1 ∧
    makeShapeElement .circle p1 p2 = makeShapeElement .circle p2 p1 ∧
    makeShapeElement .line p1 p2 = some (.line p1.x p1.y p2.x p2.y) ∧
    makeShapeElement .line p2 p1 = some (.line p2.x p2.y p1.x p1.y) := by
  refine ⟨?_, ?_, rfl, rfl⟩
  · simp [makeShapeElement, rectMakeElement, min_comm, abs_sub_comm]
  · simp [makeShapeElement, circleMakeElement, add_comm, abs_sub_comm]

/-- C4: with the freehand tool active, a drag of pointer-down at `p0`,
moves through `ps`, and pointer-up at `pf` appends exactly one freehand
element whose path is exactly `p0 :: ps ++ [pf]`, in order. -/
theorem freehand_drag_commits_exact_path (s : CanvasState)
    (htool : s.tool = .draw) (p0 pf : Point) (ps : List Point) :
    (runMoves (onMouseDown s p0) ps).bind (fun s' => onMouseUp s' pf) =
      some { s with
        elements := s.elements ++ [.draw (p0 :: (ps ++ [pf]))],
        drawing := ⟨false, some p0, p0 :: (ps ++ [pf])⟩ } := by
  have h1 : runMoves (onMouseDown s p0) ps =
      some { s with drawing := ⟨true, some p0, p0 :: ps⟩ } := by
    have h := runMoves_draw ps (onMouseDown s p0) rfl htool
    simpa [onMouseDown] using h
  rw [h1, Option.some_bind]
  simp [onMouseUp, htool]

/-- Witness for C4: a concrete freehand drag through four points. -/
theorem freehand_drag_commits_exact_path_witness :
    (runMoves (onMouseDown ⟨[], .draw, ⟨false, none, []⟩⟩ ⟨0, 0⟩)
        [⟨1, 1⟩, ⟨2, 2⟩]).bind (fun s' => onMouseUp s' ⟨3, 3⟩) =
      some ⟨[.draw [⟨0, 0⟩, ⟨1, 1⟩, ⟨2, 2⟩, ⟨3, 3⟩]], .draw,
        ⟨false, some ⟨0, 0⟩, [⟨0, 0⟩, ⟨1, 1⟩, ⟨2, 2⟩, ⟨3, 3⟩]⟩⟩ :=
  freehand_drag_commits_exact_path ⟨[], .draw, ⟨false, none, []⟩⟩ rfl
    ⟨0, 0⟩ ⟨3, 3⟩ [⟨1, 1⟩, ⟨2, 2⟩]

/-- C7: a pointer-up (or pointer-leave, which is wired to the same
handler) with no active drag returns the state unchanged: Document and
drag state are untouched, with no error. -/
theorem mouseUp_inactive_noop (s : CanvasState) (pos : Point)
    (h : s.drawing.active = false) :
    onMouseUp s pos = some s := by
  simp [onMouseUp, h]

/-- Witness for C7 at the mount state. -/
theorem mouseUp_inactive_noop_witness :
    onMouseUp initState ⟨7, 9⟩ = some initState :=
  mouseUp_inactive_noop initState ⟨7, 9⟩ rfl

/-- C8: clearing replaces the Document with the empty list and changes
nothing else — tool selection and the whole drag record survive — and a
subsequent pointer-down starts a fresh drag as usual. -/
theorem clear_only_empties_document (s : CanvasState) :
    (clearOp s).elements = [] ∧ (clearOp s).tool = s.tool ∧
    (clearOp s).drawing = s.drawing ∧
    ∀ pos : Point, onMouseDown (clearOp s) pos =
      ⟨[], s.tool, ⟨true, some pos, [pos]⟩⟩ :=
  ⟨rfl, rfl, rfl, fun _ => rfl⟩

/-- C9: every freehand element ever committed to the Document has a path
of at least two points — pointer-down seeds the path with one point and
pointer-up appends the release position before committing. -/
theorem committed_freehand_path_length_ge_two (s : CanvasState)
    (hr : Reachable s) (p : List Point)
    (hp : CanvasElement.draw p ∈ s.elements) : 2 ≤ p.length :=
  (reachable_drawPathsOk hr).2 p hp

/-- Witness for C9 at a concrete reachable state holding one committed
freehand element. -/
theorem committed_freehand_path_length_ge_two_witness :
    2 ≤ ([⟨0, 0⟩, ⟨1, 1⟩] : List Point).length :=
  committed_freehand_path_length_ge_two c9state reachable_c9state
    [⟨0, 0⟩, ⟨1, 1⟩] (by simp [c9state])

/-- C10: in every reachable state the active tool is a toolbar tool
(rect, circle, line, or freehand) and never `image`, so the `TOOL_MAP`
lookup performed by the pointer-move and pointer-up handlers always
succeeds and their failure branch is unreachable. -/
theorem tool_never_image_and_lookup_succeeds (s : CanvasState)
    (hr : Reachable s) (pos : Point) :
    s.tool ∈ toolbarIds ∧ s.tool ≠ .image ∧
    (lookupTool s.tool).isSome = true ∧
    (onMouseMove s pos).isSome = true ∧
    (onMouseUp s pos).isSome = true := by
  have hm := reachable_tool_mem hr
  refine ⟨hm, ?_, lookupTool_isSome_of_mem hm,
    onMouseMove_isSome_of_mem pos hm, onMouseUp_isSome_of_mem pos hm⟩
  intro himg
  rw [himg] at hm
  simp [toolbarIds] at hm

/-- Witness for C10 at the mount state. -/
theorem tool_never_image_and_lookup_succeeds_witness :
    initState.tool ∈ toolbarIds ∧ initState.tool ≠ .image ∧
    (lookupTool initState.tool).isSome = true ∧
    (onMouseMove initState ⟨0, 0⟩).isSome = true ∧
    (onMouseUp initState ⟨0, 0⟩).isSome = true :=
  tool_never_image_and_lookup_succeeds initState Reachable.init ⟨0, 0⟩

/-- C6: a successful image upload of intrinsic size `W`×`H` with `W > 0`
commits an image element at `(50, 50)` with `w = min(W, 400)` and
`h = round((H/W)·w)`; an 800×600 source commits with `w = 400` and
`h = 300`. -/
theorem image_upload_placement (s : CanvasState) (handle W H : ℕ)
    (hW : 0 < W) :
    onImageLoad s handle W H = { s with elements := s.elements ++
      [.image handle 50 50 (min (W : ℚ) 400)
        ((jsRound ((H : ℚ) / (W : ℚ) * min (W : ℚ) 400) : ℤ) : ℚ)] } ∧
    onImageLoad s handle 800 600 = { s with elements := s.elements ++
      [.image handle 50 50 400 300] } := by
  refine ⟨rfl, ?_⟩
  have h4 : min ((800 : ℕ) : ℚ) 400 = 400 := by norm_num
  have h3 : jsRound (((600 : ℕ) : ℚ) / ((800 : ℕ) : ℚ) * 400) = 300 := by
    norm_num [jsRound]
  simp [onImageLoad, imageElementFor, h4, h3]
  norm_num [jsRound]

/-- Witness for C6 with an 800×600 source. -/
theorem image_upload_placement_witness :
    onImageLoad initState 0 800 600 = { initState with
      elements := initState.elements ++
        [.image 0 50 50 (min ((800 : ℕ) : ℚ) 400)
          ((jsRound (((600 : ℕ) : ℚ) / ((800 : ℕ) : ℚ) *
            min ((800 : ℕ) : ℚ) 400) : ℤ) : ℚ)] } ∧
    onImageLoad initState 0 800 600 = { initState with
      elements := initState.elements ++ [.image 0 50 50 400 300] } :=
  image_upload_placement initState 0 800 600 (by decide)

/-- C5 (failing input): the TypeScript `drawElement` restores the
context configuration after a freehand element with a single-point path
(nothing drawn, stack balanced), but the JavaScript `drawElement`
returns early from the `path.length < 2` check before its
`ctx.restore()`, leaving the per-call configuration installed and the
saved entry unpopped. -/
theorem drawElement_short_freehand_restore_divergence :
    (drawElement ctx0 (.draw [⟨1, 1⟩])).config = ctx0.config ∧
    (drawElement ctx0 (.draw [⟨1, 1⟩])).saved = ctx0.saved ∧
    (drawElement ctx0 (.draw [⟨1, 1⟩])).ops = ctx0.ops ∧
    (drawElementJS ctx0 (.draw [⟨1, 1⟩])).ops = ctx0.ops ∧
    (drawElementJS ctx0 (.draw [⟨1, 1⟩])).config = fixedConfig ∧
    (drawElementJS ctx0 (.draw [⟨1, 1⟩])).config ≠ ctx0.config ∧
    (drawElementJS ctx0 (.draw [⟨1, 1⟩])).saved = [ctx0.config] := by
  refine ⟨rfl, rfl, rfl, rfl, rfl, ?_, rfl⟩
  simp [drawElementJS, Ctx.save, Ctx.setConfig, ctx0, fixedConfig]

end Canva
